import Mathlib

/-!
# Verification of the waypoint decomposition orchestrator (`lacam.py` and
`comprehensive_test.py`)

Shallow embedding of the segment-decomposition orchestrator: Python strings
are modelled as `List Char`, file contents as lists of lines (each a
`List Char` without its trailing newline), the external solver and the
per-cell child process as explicit outcome values, and the two loops that
can fail to terminate (the scenario parser's `while` loop) as fuel-indexed
step functions.
-/

/-! ## Python string primitives -/

/-- Characters treated as whitespace by Python's `str.strip()`. -/
def isPySpace (c : Char) : Bool :=
  c = ' ' || c = '\t' || c = '\n' || c = '\r' || c = '\x0b' || c = '\x0c'

/-- Python `str.strip()`: drop whitespace from both ends. -/
def pyStrip (l : List Char) : List Char :=
  (((l.dropWhile isPySpace).reverse).dropWhile isPySpace).reverse

/-- Python `str.split(sep)` for a single-character separator, specialised to
the tab character used by the scenario format. `"".split(t)` is `[""]`. -/
def splitTab : List Char → List (List Char)
  | [] => [[]]
  | c :: rest =>
    if c = '\t' then [] :: splitTab rest
    else
      match splitTab rest with
      | [] => [[c]]
      | f :: fs => (c :: f) :: fs

/-- Python `sep.join(fields)` for the tab separator. -/
def joinTab : List (List Char) → List Char
  | [] => []
  | [f] => f
  | f :: fs => f ++ '\t' :: joinTab fs

/-- Python `str.split(sep)` for the `=` separator used on artifact lines. -/
def splitEq : List Char → List (List Char)
  | [] => [[]]
  | c :: rest =>
    if c = '=' then [] :: splitEq rest
    else
      match splitEq rest with
      | [] => [[c]]
      | f :: fs => (c :: f) :: fs

/-- Python `str.startswith(pat)` on char lists. -/
def startsWithStr : List Char → List Char → Bool
  | [], _ => true
  | _, [] => false
  | p :: ps, c :: cs => p = c && startsWithStr ps cs

/-- One decimal digit character. -/
def digitCh (d : Nat) : Char :=
  match d % 10 with
  | 0 => '0' | 1 => '1' | 2 => '2' | 3 => '3' | 4 => '4'
  | 5 => '5' | 6 => '6' | 7 => '7' | 8 => '8' | _ => '9'

/-- Decimal rendering of a natural number, as Python `str(n)` produces for
`n >= 0`. -/
def natRepr (n : Nat) : List Char :=
  if _h : n < 10 then [digitCh n]
  else natRepr (n / 10) ++ [digitCh (n % 10)]
termination_by n
decreasing_by
  exact Nat.div_lt_self (by omega) (by omega)

/-- Decimal rendering of a Python integer (`str(n)` / f-string placement). -/
def intRepr (n : Int) : List Char :=
  if n < 0 then '-' :: natRepr n.natAbs else natRepr n.toNat

/-- Digit-string to number; `none` when empty or a non-digit appears. -/
def digitsToNat (l : List Char) : Option Nat :=
  if l = [] then none
  else l.foldlM (fun acc c => if c.isDigit then some (acc * 10 + (c.toNat - 48)) else none) 0

/-- Python `int(s)`: strip whitespace, optional sign, then decimal digits;
`none` models the `ValueError` raised on anything else. -/
def pyInt (l : List Char) : Option Int :=
  match pyStrip l with
  | '-' :: rest => (digitsToNat rest).map (fun n => -(n : Int))
  | '+' :: rest => (digitsToNat rest).map (fun n => (n : Int))
  | rest => (digitsToNat rest).map (fun n => (n : Int))

/-! ## Data model: agents (`parse_waypoint_scenario` records) -/

/-- One agent record as built by `parse_waypoint_scenario` in `lacam.py`:
start, goal, the ordered waypoint list, the declared waypoint count `K`
(field 9 of the scenario line) and the original bucket id (field 0). -/
structure Agent where
  bucket_id : Int
  start : Int × Int
  goal : Int × Int
  waypoints : List (Int × Int)
  K : Int
deriving DecidableEq, Repr

/-! ## SegmentBuilder (`create_segment_scenario`, lacam.py lines 117-150) -/

/-- The start/goal pair `create_segment_scenario` computes for one agent at
one segment index (lacam.py lines 127-142). -/
def segmentPair (a : Agent) (segment_idx : Nat) : (Int × Int) × (Int × Int) :=
  if h0 : segment_idx = 0 then
    (a.start, match a.waypoints with
              | [] => a.goal
              | w :: _ => w)
  else if h : segment_idx ≤ a.waypoints.length then
    (a.waypoints.get ⟨segment_idx - 1, by omega⟩,
     if hl : segment_idx = a.waypoints.length then a.goal
     else a.waypoints.get ⟨segment_idx, by omega⟩)
  else
    (a.goal, a.goal)

/-- The tab-separated fields of the scenario line written for one agent
(lacam.py line 147): bucket, map name, width, height, start row/col,
goal row/col, Manhattan-distance optimal-length hint — 9 fields, and the
waypoint-count field is not written. -/
def agentLineFields (a : Agent) (segment_idx : Nat) (map_filename : List Char)
    (map_width map_height : Int) : List (List Char) :=
  let sg := segmentPair a segment_idx
  let opt_len : Int := (sg.1.1 - sg.2.1).natAbs + (sg.1.2 - sg.2.2).natAbs
  [intRepr a.bucket_id, map_filename, intRepr map_width, intRepr map_height,
   intRepr sg.1.1, intRepr sg.1.2, intRepr sg.2.1, intRepr sg.2.2, intRepr opt_len]

/-- Header line `version 1` written first by `create_segment_scenario`. -/
def versionHeader : List Char := ['v', 'e', 'r', 's', 'i', 'o', 'n', ' ', '1']

/-- The word `version` tested by the parser's header check. -/
def versionWord : List Char := ['v', 'e', 'r', 's', 'i', 'o', 'n']

/-- `create_segment_scenario` (lacam.py lines 117-150) as the list of lines
of the temporary scenario file it writes: the `version 1` header, then one
tab-joined line per agent. -/
def create_segment_scenario (agents : List Agent) (segment_idx : Nat)
    (map_filename : List Char) (map_width map_height : Int) : List (List Char) :=
  versionHeader ::
    agents.map (fun a => joinTab (agentLineFields a segment_idx map_filename map_width map_height))

example : segmentPair ⟨0, (1, 2), (7, 8), [(3, 4)], 1⟩ 0 = ((1, 2), (3, 4)) := by decide
example : segmentPair ⟨0, (1, 2), (7, 8), [(3, 4)], 1⟩ 1 = ((3, 4), (7, 8)) := by decide
example : segmentPair ⟨0, (1, 2), (7, 8), [(3, 4)], 1⟩ 2 = ((7, 8), (7, 8)) := by decide
example : segmentPair ⟨0, (1, 2), (7, 8), [], 0⟩ 0 = ((1, 2), (7, 8)) := by decide

/-! ## ScenarioParser (`parse_waypoint_scenario`, lacam.py lines 32-89)

The Python function is a `while i < len(lines)` loop over the file's lines;
it is embedded as a step function on an explicit state plus a fuel-indexed
driver, because one of its branches (`continue` without `i += 1`, lines
75-77) does not advance the loop variable. -/

/-- State of the parser's `while` loop: the file's lines, the loop index
`i`, and the agents accumulated so far (kept reversed; Python appends). -/
structure PState where
  lines : List (List Char)
  i : Nat
  agents : List Agent
deriving DecidableEq

/-- Result of one iteration of the loop body: loop exit with the final
agent list, another iteration from a new state, or a raised exception
(a failed `int(...)` conversion). -/
inductive StepRes where
  | done (agents : List Agent)
  | cont (s : PState)
  | raise
deriving DecidableEq

/-- The waypoint-extraction loop (lacam.py lines 70-74): for `j` in
`range(K)`, append `(int(wp[2j]), int(wp[2j+1]))` when the guard
`j*2 + 1 < len(waypoint_parts)` holds; a failed `int` raises. -/
def extractWaypoints (wparts : List (List Char)) (k : Nat) : Option (List (Int × Int)) :=
  (List.range k).foldlM
    (fun acc j =>
      if j * 2 + 1 < wparts.length then
        match pyInt (wparts.getD (j * 2) []), pyInt (wparts.getD (j * 2 + 1) []) with
        | some r, some c => some (acc ++ [(r, c)])
        | _, _ => none
      else some acc)
    []

/-- One iteration of `parse_waypoint_scenario`'s loop body (lacam.py lines
45-87), in source order: exit when `i` is past the last line; strip the
line and skip empty lines; split on tabs and skip lines with fewer than 10
fields; convert the coordinate fields and `K` with `int`; if the line has
at least `10 + 2K` fields, extract waypoints and append the agent record,
else (lines 75-77) `continue` WITHOUT advancing `i`. -/
def parseStep (s : PState) : StepRes :=
  match s.lines[s.i]? with
  | none => .done s.agents.reverse
  | some rawLine =>
    let line := pyStrip rawLine
    if line = [] then .cont ⟨s.lines, s.i + 1, s.agents⟩
    else
      let parts := splitTab line
      if parts.length < 10 then .cont ⟨s.lines, s.i + 1, s.agents⟩
      else
        match pyInt (parts.getD 4 []), pyInt (parts.getD 5 []),
              pyInt (parts.getD 6 []), pyInt (parts.getD 7 []),
              pyInt (parts.getD 9 []) with
        | some s_row, some s_col, some g_row, some g_col, some k =>
          if (parts.length : Int) ≥ 10 + k * 2 then
            match extractWaypoints (parts.drop 10) k.toNat with
            | none => .raise
            | some wps =>
              match pyInt (parts.getD 0 []) with
              | none => .raise
              | some bucket =>
                .cont ⟨s.lines, s.i + 1,
                       ⟨bucket, (s_row, s_col), (g_row, g_col), wps, k⟩ :: s.agents⟩
          else
            .cont ⟨s.lines, s.i, s.agents⟩
        | _, _, _, _, _ => .raise

/-- Terminal outcome of a parse: the returned agent list, or a raised
exception. -/
inductive ParseOutcome where
  | parsed (agents : List Agent)
  | raised
deriving DecidableEq

/-- Run the loop for at most `fuel` iterations; `none` means the loop was
still running when the fuel ran out (so the real loop has not returned
within that many iterations). -/
def parseRun : Nat → PState → Option ParseOutcome
  | 0, _ => none
  | fuel + 1, s =>
    match parseStep s with
    | .done ags => some (.parsed ags)
    | .raise => some .raised
    | .cont s2 => parseRun fuel s2

/-- `parse_waypoint_scenario` (lacam.py lines 32-89) on a file given as its
list of lines: skip an initial `version` header if present, then run the
line loop from that index with the given fuel. -/
def parse_waypoint_scenario (fuel : Nat) (lines : List (List Char)) : Option ParseOutcome :=
  let start_idx : Nat :=
    match lines with
    | [] => 0
    | l0 :: _ => if startsWithStr versionWord (pyStrip l0) then 1 else 0
  parseRun fuel ⟨lines, start_idx, []⟩

example :
    parse_waypoint_scenario 4
      [("version 1").data, ("3\tm.map\t8\t8\t1\t2\t3\t4\t5\t1\t6\t7").data] =
      some (.parsed [⟨3, (1, 2), (3, 4), [(6, 7)], 1⟩]) := by decide

example :
    parse_waypoint_scenario 4
      [("version 1").data, ("3\tm.map\t8\t8\t1\t2\t3\t4\t5").data] =
      some (.parsed []) := by decide

/-! ## SolverInvoker (`run_lacam_segment`, lacam.py lines 152-196)

The child process is opaque; its behaviour on one invocation is an input
value: either it finished with an exit code, captured stdout/stderr and an
output artifact (given as the artifact file's lines), or the
`subprocess.run` call raised `TimeoutExpired`. The measured wall-clock
runtime is an abstract parameter. -/

/-- Outcome of the one `subprocess.run` call made by `run_lacam_segment`. -/
inductive ChildOutcome where
  | exited (returncode : Int) (stdout stderr : List Char) (artifact : List (List Char))
  | timedOut
deriving DecidableEq

/-- The string `soc=` scanned for in the artifact (lacam.py line 186). -/
def socKey : List Char := ['s', 'o', 'c', '=']

/-- The value the loop body of lacam.py lines 185-188 extracts from one
artifact line: `int(line.split('=')[1].strip())` when the line starts with
`soc=`; `none` when the line does not match or the conversion raises. -/
def socValue (l : List Char) : Option Int :=
  if startsWithStr socKey l then pyInt (pyStrip ((splitEq l).getD 1 []))
  else none

/-- Cost extraction from the artifact (lacam.py lines 182-190): `cost`
starts at 0; the first line starting with `soc=` is converted and the loop
breaks; any exception inside the `try` leaves `cost = 0`. -/
def extract_cost (artifact : List (List Char)) : Int :=
  match artifact.find? (fun l => startsWithStr socKey l) with
  | none => 0
  | some l => (socValue l).getD 0

/-- `run_lacam_segment` (lacam.py lines 152-196): on `TimeoutExpired`
return `(None, timeout, None)`; on non-zero exit return
`(None, runtime, None)`; on exit 0 return the extracted cost, the runtime
and the artifact path (abstracted to `some ()`). -/
def run_lacam_segment (outcome : ChildOutcome) (runtime timeout_s : Nat) :
    Option Int × Nat × Option Unit :=
  match outcome with
  | .timedOut => (none, timeout_s, none)
  | .exited rc _ _ artifact =>
    if rc ≠ 0 then (none, runtime, none)
    else (some (extract_cost artifact), runtime, some ())

example : extract_cost [("makespan=4").data, ("soc=17").data] = 17 := by decide
example : extract_cost [("makespan=4").data, ("solved=1").data] = 0 := by decide
example : extract_cost [("soc=oops").data, ("soc=17").data] = 0 := by decide

/-! ## ExperimentOrchestrator (`run_experiment`, lacam.py lines 287-464)

The segment loop is driven by the per-segment solver results; the solver's
behaviour across the experiment is an oracle `Nat → Option Int` giving the
cost returned for each segment index (`none` = failed or timed out, the
cases in which `run_lacam_segment` returns a `None` cost). -/

/-- Names of the two summary files written at the end of a successful
`run_experiment` (lacam.py lines 426 and 432). -/
def wsJson : List Char := ("waypoint_summary.json").data

def wsTxt : List Char := ("waypoint_summary.txt").data

/-- The segment loop (lacam.py lines 323-377) over segments
`i, i+1, ..., i+r-1`: returns the list of segment indices actually passed
to the solver, in order, and `some costs` when every one returned a cost,
`none` when one returned `None` (at which point the loop stops: lines
337-340 call `sys.exit(1)`). -/
def segLoop (solver : Nat → Option Int) : Nat → Nat → List Nat × Option (List Int)
  | _, 0 => ([], some [])
  | i, r + 1 =>
    match solver i with
    | none => ([i], none)
    | some c =>
      let rest := segLoop solver (i + 1) r
      (i :: rest.1, rest.2.map (fun cs => c :: cs))

/-- Observable outcome of one `run_experiment` call: which segments were
given to the solver, which summary files were written, the aggregated
total cost, and whether the call ended in `sys.exit(1)`. -/
structure ExpOutcome where
  invoked : List Nat
  files : List (List Char)
  totalCost : Option Int
  aborted : Bool
deriving DecidableEq

/-- `max(len(agent['waypoints']) for agent in agents)` (lacam.py line 290);
Python's `max` over the non-empty case that `run_experiment` is called in. -/
def max_waypoints (agents : List Agent) : Nat :=
  (agents.map (fun a => a.waypoints.length)).foldl Nat.max 0

/-- `num_segments = max_waypoints + 1` (lacam.py line 292). -/
def num_segments (agents : List Agent) : Nat :=
  max_waypoints agents + 1

/-- Per-segment timeout (lacam.py lines 295-297): integer floor division of
the total timeout by the segment count, raised to 1 when below 1. -/
def per_segment_timeout (total_timeout num_segs : Nat) : Nat :=
  let t := total_timeout / num_segs
  if t < 1 then 1 else t

/-- `run_experiment`'s control flow (lacam.py lines 287-464) given the
number of segments and the solver oracle: run segments 0, 1, ... in order;
on the first `None` cost exit with status 1 having written no summary; if
all segments return costs, write both summary files with the summed total
cost. -/
def run_experiment (numSegs : Nat) (solver : Nat → Option Int) : ExpOutcome :=
  match segLoop solver 0 numSegs with
  | (inv, none) => ⟨inv, [], none, true⟩
  | (inv, some cs) => ⟨inv, [wsJson, wsTxt], some (cs.foldl (fun a b => a + b) 0), false⟩

example :
    run_experiment 3 (fun i => if i = 1 then none else some 5) =
      ⟨[0, 1], [], none, true⟩ := by decide
example :
    run_experiment 2 (fun i => some ((i : Int) + 3)) =
      ⟨[0, 1], [wsJson, wsTxt], some 7, false⟩ := by decide

/-! ## ScaleSweepController (`main`'s agent-count loop, lacam.py 239-261)

For each requested agent count the loop truncates the parsed agent list to
a prefix and calls `run_experiment` in the same process; `sys.exit(1)`
inside a failed experiment therefore ends the loop (and the process). The
solver oracle here takes the agent count and the segment index. -/

/-- `current_agents = agents[:agent_count]` (lacam.py line 245). -/
def current_agents (agents : List Agent) (agent_count : Nat) : List Agent :=
  agents.take agent_count

/-- The sweep loop: returns the agent counts whose experiments were
actually started, in order, and whether the process died in `sys.exit(1)`.
A failed experiment stops the loop; a successful one proceeds to the next
count. -/
def multi_scale (agents : List Agent) (solver : Nat → Nat → Option Int) :
    List Nat → List Nat × Bool
  | [] => ([], false)
  | c :: rest =>
    let out := run_experiment (num_segments (current_agents agents c)) (solver c)
    if out.aborted then ([c], true)
    else
      let r := multi_scale agents solver rest
      (c :: r.1, r.2)

/-! ## MatrixRunner (`comprehensive_test.py`)

`run_single_experiment` spawns `lacam.py` as a subprocess per cell and
classifies the outcome; `generate_comprehensive_report` serialises every
cell result and renders a table row per cell. The per-cell child process
is an input value; the summary data parsed from `waypoint_summary.json`
is opaque here (its numeric fields are floats, only rendered on the
success path, which is abstracted by a renderer parameter). -/

/-- Summary data loaded from `waypoint_summary.json`; opaque payload. -/
structure SummaryData where
  payload : Unit
deriving DecidableEq

/-- Outcome of the one `subprocess.run` call of `run_single_experiment`
(comprehensive_test.py line 103): the child finished with an exit code,
captured streams and the summary file's content if it exists; or the call
raised `TimeoutExpired`; or some other exception was raised. -/
inductive CellRun where
  | finished (returncode : Int) (stdout stderr : List Char) (summary : Option SummaryData)
  | timedOut
  | excepted (msg : List Char)
deriving DecidableEq

def statusSuccess : List Char := ("success").data

def statusNoSummary : List Char := ("no_summary").data

def statusFailed : List Char := ("failed").data

def statusTimeout : List Char := ("timeout").data

def statusError : List Char := ("error").data

def errNoSummary : List Char := ("Summary file not found").data

def errTimeout : List Char := ("Experiment timed out after 5 minutes").data

/-- One cell's result record as built by `run_single_experiment`
(comprehensive_test.py lines 113-158): identification fields plus status,
optional error text, optional captured stdout, optional summary data. -/
structure CellResult where
  map : List Char
  waypoints : Nat
  agent_count : Nat
  status : List Char
  error : Option (List Char)
  stdout : Option (List Char)
  data : Option SummaryData
deriving DecidableEq

/-- `run_single_experiment` (comprehensive_test.py lines 78-158):
exit 0 with a summary file → `success` with the data; exit 0 without one →
`no_summary`; non-zero exit → `failed` carrying stderr as the error text
and the captured stdout; `TimeoutExpired` → `timeout`; any other
exception → `error` with its message. -/
def run_single_experiment (mapName : List Char) (wp agent_count : Nat)
    (child : CellRun) : CellResult :=
  match child with
  | .finished rc so se sd =>
    if rc = 0 then
      match sd with
      | some d => ⟨mapName, wp, agent_count, statusSuccess, none, none, some d⟩
      | none => ⟨mapName, wp, agent_count, statusNoSummary, some errNoSummary, none, none⟩
    else ⟨mapName, wp, agent_count, statusFailed, some se, some so, none⟩
  | .timedOut => ⟨mapName, wp, agent_count, statusTimeout, some errTimeout, none, none⟩
  | .excepted m => ⟨mapName, wp, agent_count, statusError, some m, none, none⟩

def notAvailable : List Char := ['N', '/', 'A']

/-- One row of the `RESULTS SUMMARY` table (comprehensive_test.py lines
224-240): map truncated to 19 characters, waypoint count, agent count,
status truncated to 9 characters, then runtime, cost and cost-per-agent —
rendered from the summary data through `render` for a `success` cell, and
the literal `N/A` otherwise. -/
structure ReportRow where
  map : List Char
  waypoints : Nat
  agent_count : Nat
  status : List Char
  runtime : List Char
  cost : List Char
  costPerAgent : List Char
deriving DecidableEq

/-- Row construction for one cell (comprehensive_test.py lines 224-240);
`run_single_experiment` attaches summary data to every `success` cell, so
the default passed to `getD` (the unique `SummaryData` value) is inert. -/
def reportRow (render : SummaryData → List Char × List Char × List Char)
    (r : CellResult) : ReportRow :=
  if r.status = statusSuccess then
    let m := render (r.data.getD ⟨()⟩)
    ⟨r.map.take 19, r.waypoints, r.agent_count, r.status.take 9, m.1, m.2.1, m.2.2⟩
  else
    ⟨r.map.take 19, r.waypoints, r.agent_count, r.status.take 9,
     notAvailable, notAvailable, notAvailable⟩

/-- `generate_comprehensive_report` (comprehensive_test.py lines 198-257):
the JSON report is the full list of cell results; the text report's table
has one row per cell, in order. -/
def generate_comprehensive_report
    (render : SummaryData → List Char × List Char × List Char)
    (all_results : List CellResult) : List CellResult × List ReportRow :=
  (all_results, all_results.map (reportRow render))

/-! ## Shared demonstration data for concrete instantiations -/

/-- A demonstration agent with two waypoints. -/
def demoA : Agent := ⟨5, (0, 0), (9, 9), [(1, 1), (2, 2)], 2⟩

/-- A demonstration agent with no waypoints. -/
def demoB : Agent := ⟨6, (3, 3), (4, 4), [], 0⟩

/-- A demonstration two-agent scenario. -/
def demoAgents : List Agent := [demoA, demoB]

/-! ## C6: per-segment timeout -/

/-- C6: for all positive `total_timeout` and `num_segments`, the
per-segment timeout computed by the experiment equals
`max(1, total_timeout // num_segments)` with integer floor division. -/
theorem per_segment_timeout_eq (total_timeout num_segs : Nat)
    (_hT : 0 < total_timeout) (_hn : 0 < num_segs) :
    per_segment_timeout total_timeout num_segs = max 1 (total_timeout / num_segs) := by
  unfold per_segment_timeout
  rcases Nat.lt_or_ge (total_timeout / num_segs) 1 with h | h
  · simp only [if_pos h]
    omega
  · simp only [if_neg (Nat.not_lt.mpr h)]
    omega

/-- C6 witness: concrete instance `T = 100`, `num_segments = 3`. -/
theorem per_segment_timeout_eq_instance :
    per_segment_timeout 100 3 = 33 ∧ max 1 (100 / 3) = 33 :=
  ⟨by rw [per_segment_timeout_eq 100 3 (by decide) (by decide)]; omega, by omega⟩

/-! ## C9: scale truncation takes an initial segment of the parsed agents -/

/-- C9: for every requested agent count `N` at most the number of parsed
agents, the agent set used by that experiment is exactly the first `N`
records of the parsed sequence in file order: it has length `N`, agrees
with the full sequence at every index below `N`, and the full sequence is
this initial segment followed by the remaining records. -/
theorem current_agents_is_initial_segment (agents : List Agent) (n : Nat)
    (h : n ≤ agents.length) :
    (current_agents agents n).length = n ∧
    (∀ i, i < n → (current_agents agents n)[i]? = agents[i]?) ∧
    current_agents agents n ++ agents.drop n = agents := by
  refine ⟨?_, ?_, ?_⟩
  · simp [current_agents]
    omega
  · intro i hi
    simp [current_agents, List.getElem?_take, hi]
  · exact List.take_append_drop n agents

/-- C9 witness: the 1-agent truncation of the demonstration scenario. -/
theorem current_agents_is_initial_segment_instance :
    (current_agents demoAgents 1).length = 1 ∧
    (current_agents demoAgents 1)[0]? = demoAgents[0]? :=
  ⟨(current_agents_is_initial_segment demoAgents 1 (by decide)).1,
   (current_agents_is_initial_segment demoAgents 1 (by decide)).2.1 0 (by decide)⟩

/-! ## C7: solver-invocation return contract -/

/-- Helper: when no artifact line yields a `soc` value, the extracted cost
is 0. -/
theorem extract_cost_eq_zero (artifact : List (List Char))
    (h : ∀ l ∈ artifact, socValue l = none) : extract_cost artifact = 0 := by
  unfold extract_cost
  cases hf : artifact.find? (fun l => startsWithStr socKey l) with
  | none => rfl
  | some l =>
    have hmem : l ∈ artifact := List.mem_of_find?_eq_some hf
    show (socValue l).getD 0 = 0
    rw [h l hmem]
    rfl

/-- C7: `run_lacam_segment`'s return contract: a non-zero child exit gives
`(None, runtime, None)`; a timeout gives `(None, timeout_s, None)`; a zero
exit whose artifact has no `soc=<int>` line gives cost 0 (not an error). -/
theorem run_lacam_segment_contract (outcome : ChildOutcome) (runtime timeout_s : Nat) :
    (∀ rc so se art, outcome = .exited rc so se art → rc ≠ 0 →
        run_lacam_segment outcome runtime timeout_s = (none, runtime, none)) ∧
    (outcome = .timedOut →
        run_lacam_segment outcome runtime timeout_s = (none, timeout_s, none)) ∧
    (∀ rc so se art, outcome = .exited rc so se art → rc = 0 →
        (∀ l ∈ art, socValue l = none) →
        run_lacam_segment outcome runtime timeout_s = (some 0, runtime, some ())) := by
  refine ⟨?_, ?_, ?_⟩
  · intro rc so se art ho hrc
    subst ho
    simp [run_lacam_segment, hrc]
  · intro ho
    subst ho
    rfl
  · intro rc so se art ho hrc hart
    subst ho
    subst hrc
    simp [run_lacam_segment, extract_cost_eq_zero art hart]

/-- C7 witness: a zero-exit child whose artifact has `solved=1` and a
malformed `soc=` line but no `soc=<int>` line returns cost 0; a timed-out
child returns `(None, 5, None)`. -/
theorem run_lacam_segment_contract_instance :
    run_lacam_segment (.exited 0 [] [] [("solved=1").data, ("soc=oops").data]) 2 5 =
      (some 0, 2, some ()) ∧
    run_lacam_segment .timedOut 2 5 = (none, 5, none) :=
  ⟨(run_lacam_segment_contract (.exited 0 [] [] [("solved=1").data, ("soc=oops").data]) 2 5).2.2
      0 [] [] [("solved=1").data, ("soc=oops").data] rfl rfl (by decide),
   (run_lacam_segment_contract .timedOut 2 5).2.1 rfl⟩

/-! ## C1: the three-case segment start/goal rule -/

/-- C1: `create_segment_scenario` assigns each agent's segment start and
goal by the three-case rule: segment 0 goes from the original start to the
first waypoint (or to the goal when there are none); for
`1 <= segment_index <= K` it goes from `waypoints[segment_index-1]` to
`waypoints[segment_index]` (to the original goal when
`segment_index = K`); past `K` the agent is parked at its goal. -/
theorem segmentPair_three_case_rule (a : Agent) (s : Nat) :
    (s = 0 → (segmentPair a s).1 = a.start ∧
        (a.waypoints = [] → (segmentPair a s).2 = a.goal) ∧
        (∀ w ws, a.waypoints = w :: ws → (segmentPair a s).2 = w)) ∧
    (1 ≤ s → s ≤ a.waypoints.length →
        a.waypoints[s - 1]? = some (segmentPair a s).1 ∧
        (s < a.waypoints.length → a.waypoints[s]? = some (segmentPair a s).2) ∧
        (s = a.waypoints.length → (segmentPair a s).2 = a.goal)) ∧
    (a.waypoints.length < s → segmentPair a s = (a.goal, a.goal)) := by
  refine ⟨?_, ?_, ?_⟩
  · intro hs
    subst hs
    refine ⟨by simp [segmentPair], ?_, ?_⟩
    · intro hw
      simp [segmentPair, hw]
    · intro w ws hw
      simp [segmentPair, hw]
  · intro h1 h2
    have hs0 : ¬ s = 0 := by omega
    refine ⟨?_, ?_, ?_⟩
    · simp only [segmentPair, dif_neg hs0, dif_pos h2]
      rw [List.getElem?_eq_getElem (by omega)]
      simp [List.get_eq_getElem]
    · intro hlt
      have hne : ¬ s = a.waypoints.length := by omega
      simp only [segmentPair, dif_neg hs0, dif_pos h2, dif_neg hne]
      rw [List.getElem?_eq_getElem hlt]
      simp [List.get_eq_getElem]
    · intro heq
      simp only [segmentPair, dif_neg hs0, dif_pos h2, dif_pos heq]
  · intro h
    have hs0 : ¬ s = 0 := by omega
    have hle : ¬ s ≤ a.waypoints.length := by omega
    simp [segmentPair, dif_neg hs0, dif_neg hle]

/-- C1 witness: the demonstration agent with two waypoints at its last
middle segment (index 2 = its `K`), and past its `K` (index 3). -/
theorem segmentPair_three_case_rule_instance :
    demoA.waypoints[1]? = some (segmentPair demoA 2).1 ∧
    (segmentPair demoA 2).2 = demoA.goal ∧
    segmentPair demoA 3 = (demoA.goal, demoA.goal) :=
  ⟨((segmentPair_three_case_rule demoA 2).2.1 (by decide) (by decide)).1,
   ((segmentPair_three_case_rule demoA 2).2.1 (by decide) (by decide)).2.2 (by decide),
   (segmentPair_three_case_rule demoA 3).2.2 (by decide)⟩

/-! ## Segment-loop lemmas shared by the experiment-level claims -/

/-- When every segment in the window succeeds, the loop invokes exactly
the window's indices in order and collects a cost list of that length. -/
theorem segLoop_all_ok (solver : Nat → Option Int) :
    ∀ r i, (∀ j, j < r → solver (i + j) ≠ none) →
      (segLoop solver i r).1 = List.range' i r ∧
      ∃ cs, (segLoop solver i r).2 = some cs ∧ cs.length = r := by
  intro r
  induction r with
  | zero => intro i _; exact ⟨rfl, [], rfl, rfl⟩
  | succ r ih =>
    intro i h
    have h0 : solver i ≠ none := by
      have := h 0 (by omega)
      simpa using this
    cases hc : solver i with
    | none => exact absurd hc h0
    | some c =>
      have hrest := ih (i + 1) (fun j hj => by
        have := h (j + 1) (by omega)
        simpa [Nat.add_assoc, Nat.add_comm 1 j] using this)
      obtain ⟨hinv, cs, hcs, hlen⟩ := hrest
      refine ⟨?_, c :: cs, ?_, by simp [hlen]⟩
      · simp [segLoop, hc, hinv, List.range']
      · simp [segLoop, hc, hcs]

/-- When the first failing segment in the window is at offset `m`, the loop
invokes exactly the indices up to and including it and yields no costs. -/
theorem segLoop_first_fail (solver : Nat → Option Int) :
    ∀ m r i, solver (i + m) = none → (∀ j, j < m → solver (i + j) ≠ none) →
      m < r → segLoop solver i r = (List.range' i (m + 1), none) := by
  intro m
  induction m with
  | zero =>
    intro r i hfail _ hr
    obtain ⟨r', rfl⟩ : ∃ r', r = r' + 1 := ⟨r - 1, by omega⟩
    simp only [Nat.add_zero] at hfail
    simp [segLoop, hfail, List.range']
  | succ m ih =>
    intro r i hfail hok hr
    obtain ⟨r', rfl⟩ : ∃ r', r = r' + 1 := ⟨r - 1, by omega⟩
    have h0 : solver i ≠ none := by
      have := hok 0 (by omega)
      simpa using this
    cases hc : solver i with
    | none => exact absurd hc h0
    | some c =>
      have hrest := ih r' (i + 1)
        (by rw [show i + 1 + m = i + (m + 1) by omega]; exact hfail)
        (fun j hj => by
          have := hok (j + 1) (by omega)
          simpa [Nat.add_assoc, Nat.add_comm 1 j] using this)
        (by omega)
      simp [segLoop, hc, hrest, List.range']

/-! ## C2: fail-fast within one experiment -/

/-- C2: if the solver returns a `None` cost for segment `i` (and the
earlier segments all returned costs), `run_experiment` stops at once: the
solver is invoked on segments `0, ..., i` only (none retried, none
skipped, none after `i`), the process exits with an error, no summary file
is written and no aggregate cost is produced; and the summary files are
written exactly when every segment returned a cost. -/
theorem run_experiment_fail_fast (n : Nat) (solver : Nat → Option Int) :
    (∀ i, i < n → solver i = none → (∀ j, j < i → solver j ≠ none) →
        run_experiment n solver = ⟨List.range (i + 1), [], none, true⟩) ∧
    ((run_experiment n solver).files = [wsJson, wsTxt] ↔ ∀ i, i < n → solver i ≠ none) := by
  constructor
  · intro i hi hfail hok
    have h := segLoop_first_fail solver i n 0 (by simpa using hfail)
      (fun j hj => by simpa using hok j hj) hi
    unfold run_experiment
    rw [h, List.range_eq_range']
  · constructor
    · intro hfiles
      by_contra hnot
      push_neg at hnot
      obtain ⟨i, hi, hfail⟩ := hnot
      have hex : ∃ k, solver k = none := ⟨i, hfail⟩
      have hi0fail : solver (Nat.find hex) = none := Nat.find_spec hex
      have hi0min : ∀ j, j < Nat.find hex → solver j ≠ none :=
        fun j hj => Nat.find_min hex hj
      have hi0lt : Nat.find hex < n :=
        lt_of_le_of_lt (Nat.find_min' hex hfail) hi
      have h := segLoop_first_fail solver (Nat.find hex) n 0
        (by simpa using hi0fail) (fun j hj => by simpa using hi0min j hj) hi0lt
      unfold run_experiment at hfiles
      rw [h] at hfiles
      simp at hfiles
    · intro hall
      have h := segLoop_all_ok solver n 0 (fun j hj => by simpa using hall j hj)
      obtain ⟨hinv, cs, hcs, _⟩ := h
      unfold run_experiment
      rw [show segLoop solver 0 n = ((segLoop solver 0 n).1, (segLoop solver 0 n).2) from rfl,
        hcs]

/-- C2 witness: three segments whose middle segment fails: the solver is
invoked on segments 0 and 1 only, no summary file is written; and with the
failure removed, both summary files are written. -/
theorem run_experiment_fail_fast_instance :
    run_experiment 3 (fun i => if i = 1 then none else some 5) =
      ⟨[0, 1], [], none, true⟩ ∧
    (run_experiment 3 (fun _ => some 5)).files = [wsJson, wsTxt] :=
  ⟨by
    have h := (run_experiment_fail_fast 3 (fun i => if i = 1 then none else some 5)).1
      1 (by decide) (by decide) (by decide)
    simpa using h,
   by
    exact (run_experiment_fail_fast 3 (fun _ => some 5)).2.mpr (fun i _ => by simp)⟩

/-! ## C5: number of segments -/

/-- The left-fold of `Nat.max` bounds every element, and is the initial
value or an element of the list. -/
theorem foldl_max_spec (l : List Nat) :
    ∀ a : Nat, a ≤ l.foldl Nat.max a ∧ (∀ x ∈ l, x ≤ l.foldl Nat.max a) ∧
      (l.foldl Nat.max a = a ∨ l.foldl Nat.max a ∈ l) := by
  induction l with
  | nil => intro a; simp
  | cons y ys ih =>
    intro a
    obtain ⟨h1, h2, h3⟩ := ih (Nat.max a y)
    refine ⟨le_trans (Nat.le_max_left a y) h1, ?_, ?_⟩
    · intro x hx
      rcases List.mem_cons.mp hx with rfl | hx
      · exact le_trans (Nat.le_max_right a x) h1
      · exact h2 x hx
    · rcases h3 with h3 | h3
      · rcases Nat.le_total a y with hm | hm
        · right
          have hmax : Nat.max a y = y := Nat.max_eq_right hm
          rw [show (y :: ys).foldl Nat.max a = ys.foldl Nat.max (Nat.max a y) from rfl, h3, hmax]
          exact List.mem_cons_self y ys
        · left
          have hmax : Nat.max a y = a := Nat.max_eq_left hm
          rw [show (y :: ys).foldl Nat.max a = ys.foldl Nat.max (Nat.max a y) from rfl, h3, hmax]
      · right
        exact List.mem_cons_of_mem y h3

/-- For a non-empty agent list, `max_waypoints` is attained by some agent
and bounds every agent's waypoint count. -/
theorem max_waypoints_spec (agents : List Agent) (hne : agents ≠ []) :
    (∀ a ∈ agents, a.waypoints.length ≤ max_waypoints agents) ∧
    (∃ a ∈ agents, a.waypoints.length = max_waypoints agents) := by
  obtain ⟨h1, h2, h3⟩ := foldl_max_spec (agents.map (fun a => a.waypoints.length)) 0
  constructor
  · intro a ha
    exact h2 _ (List.mem_map_of_mem _ ha)
  · rcases h3 with h3 | h3
    · obtain ⟨a0, as, rfl⟩ := List.exists_cons_of_ne_nil hne
      refine ⟨a0, List.mem_cons_self a0 as, ?_⟩
      have := h2 a0.waypoints.length (by simp)
      unfold max_waypoints
      omega
    · obtain ⟨a, ha, hlen⟩ := List.mem_map.mp h3
      exact ⟨a, ha, hlen⟩

/-- C5: for every non-empty agent list (with a solver that answers every
segment), the experiment invokes the solver on exactly
`max(K over agents) + 1` segments: every agent's waypoint count is below
the segment count, some agent attains it, and the number of solver
invocations equals it. -/
theorem num_segments_eq_max_plus_one (agents : List Agent) (solver : Nat → Option Int)
    (hne : agents ≠ [])
    (hok : ∀ i, i < num_segments agents → solver i ≠ none) :
    (run_experiment (num_segments agents) solver).invoked.length = num_segments agents ∧
    (∀ a ∈ agents, a.waypoints.length + 1 ≤ num_segments agents) ∧
    (∃ a ∈ agents, num_segments agents = a.waypoints.length + 1) := by
  obtain ⟨hbound, a, ha, hmax⟩ := max_waypoints_spec agents hne
  refine ⟨?_, ?_, a, ha, ?_⟩
  · obtain ⟨hinv, cs, hcs, _⟩ :=
      segLoop_all_ok solver (num_segments agents) 0 (fun j hj => by simpa using hok j hj)
    unfold run_experiment
    rw [show segLoop solver 0 (num_segments agents) =
        ((segLoop solver 0 (num_segments agents)).1,
         (segLoop solver 0 (num_segments agents)).2) from rfl, hcs]
    simp [hinv]
  · intro b hb
    have := hbound b hb
    unfold num_segments
    omega
  · unfold num_segments
    omega

/-- C5 witness: the demonstration scenario (max waypoint count 2) with an
always-answering solver runs exactly 3 segments; an all-`K=0` scenario
runs exactly 1 segment. -/
theorem num_segments_eq_max_plus_one_instance :
    (run_experiment (num_segments demoAgents) (fun _ => some 4)).invoked.length = 3 ∧
    (run_experiment (num_segments [demoB]) (fun _ => some 4)).invoked.length = 1 := by
  constructor
  · have h := (num_segments_eq_max_plus_one demoAgents (fun _ => some 4)
      (by decide) (fun i _ => by simp)).1
    simpa using h
  · have h := (num_segments_eq_max_plus_one [demoB] (fun _ => some 4)
      (by decide) (fun i _ => by simp)).1
    simpa using h

/-! ## C3: a scale-point failure and the rest of the sweep

`run_experiment` ends a failed experiment with `sys.exit(1)`; in
`--multi_scale` mode the agent-count loop of `main` runs in that same
process, so the exit kills the remaining scale points. The claim that
later agent counts still run is refuted on a concrete sweep, and the
amended statement (the sweep runs exactly the counts up to and including
the first failing one) is proved. -/

/-- A one-agent scenario for the C3 counterexample. -/
def c3Agents : List Agent := [⟨0, (0, 0), (1, 1), [], 0⟩]

/-- A solver oracle that fails every segment of every scale point. -/
def c3Solver : Nat → Nat → Option Int := fun _ _ => none

/-- C3 counterexample: in the sweep over agent counts `[100, 200]`, the
experiment for 100 agents fails, and the 200-agent experiment is NOT run:
the process dies and the only agent count started is 100. -/
theorem multi_scale_failure_not_isolated_cex :
    (run_experiment (num_segments (current_agents c3Agents 100)) (c3Solver 100)).aborted
      = true ∧
    multi_scale c3Agents c3Solver [100, 200] = ([100], true) ∧
    ¬ 200 ∈ (multi_scale c3Agents c3Solver [100, 200]).1 := by
  refine ⟨by decide, by decide, by decide⟩

/-- C3 amended: in a multi-scale sweep, a failed experiment for one agent
count terminates the whole process, so no later agent count is run: the
counts actually started are exactly those up to and including the first
failing one; when no experiment fails, every requested count runs. -/
theorem multi_scale_stops_at_first_failure (agents : List Agent)
    (solver : Nat → Nat → Option Int) :
    (∀ counts : List Nat,
      (∀ c ∈ counts,
        (run_experiment (num_segments (current_agents agents c)) (solver c)).aborted = false) →
      multi_scale agents solver counts = (counts, false)) ∧
    (∀ pre c post,
      (∀ d ∈ pre,
        (run_experiment (num_segments (current_agents agents d)) (solver d)).aborted = false) →
      (run_experiment (num_segments (current_agents agents c)) (solver c)).aborted = true →
      multi_scale agents solver (pre ++ c :: post) = (pre ++ [c], true)) := by
  constructor
  · intro counts
    induction counts with
    | nil => intro _; rfl
    | cons c rest ih =>
      intro h
      have hc := h c (List.mem_cons_self c rest)
      have hrest := ih (fun d hd => h d (List.mem_cons_of_mem c hd))
      simp [multi_scale, hc, hrest]
  · intro pre
    induction pre with
    | nil =>
      intro c post _ hc
      simp [multi_scale, hc]
    | cons d rest ih =>
      intro c post hpre hc
      have hd := hpre d (List.mem_cons_self d rest)
      have hrest := ih c post (fun e he => hpre e (List.mem_cons_of_mem d he)) hc
      simp [multi_scale, hd, hrest]

/-- C3 amended, witness: with the failing solver of the counterexample
made to succeed on the 100-agent experiment but fail on the 200-agent one,
the sweep over `[100, 200, 300]` starts exactly `[100, 200]`. -/
theorem multi_scale_stops_at_first_failure_instance :
    multi_scale c3Agents (fun c _ => if c = 100 then some 3 else none) [100, 200, 300] =
      ([100, 200], true) := by
  have h := (multi_scale_stops_at_first_failure c3Agents
    (fun c _ => if c = 100 then some 3 else none)).2 [100] 200 [300]
    (by intro d hd; simp at hd; subst hd; decide) (by decide)
  simpa using h

/-! ## C4: the parser does not terminate on a malformed waypoint line

The branch at lacam.py lines 75-77 prints a warning and executes
`continue` WITHOUT incrementing `i`, so the `while i < len(lines)` loop
re-reads the same malformed line forever. The spec's claimed behaviour
(warn, skip, advance) is the evident intent of the code; the missing
`i += 1` is the slip. -/

/-- The C4 failing input: a well-formed header and a line declaring `K=3`
waypoints but supplying none of the 6 trailing fields (10 fields total, so
it passes the 10-field check but fails the `10 + 2*K` check). -/
def c4_lines : List (List Char) :=
  [("version 1").data, ("0\tmap\t8\t8\t0\t0\t1\t1\t2\t3").data]

/-- A state on which the loop body returns the state unchanged is a loop
that never exits, whatever the fuel. -/
theorem parseRun_stuck (s : PState) (h : parseStep s = .cont s) :
    ∀ fuel, parseRun fuel s = none := by
  intro fuel
  induction fuel with
  | zero => rfl
  | succ fuel ih => simp [parseRun, h, ih]

/-- C4: `parse_waypoint_scenario` does NOT terminate on every input: on a
file whose second line declares 3 waypoints but supplies no waypoint
fields, the loop never returns, for any number of iterations. -/
theorem parse_waypoint_scenario_diverges_on_malformed_line :
    ∀ fuel, parse_waypoint_scenario fuel c4_lines = none := by
  intro fuel
  have hstep : parseStep ⟨c4_lines, 1, []⟩ = .cont ⟨c4_lines, 1, []⟩ := by decide
  have hstart : parse_waypoint_scenario fuel c4_lines = parseRun fuel ⟨c4_lines, 1, []⟩ := rfl
  rw [hstart]
  exact parseRun_stuck _ hstep fuel

/-! ## C8: failed experiments and failed matrix cells in the reports -/

/-- C8: a cell whose child process (the experiment) exits non-zero is
classified `failed` with the captured stderr as its error text and the
captured stdout attached; it appears in the JSON report written by
`generate_comprehensive_report`, and its row in the summary table carries
the status tag with `N/A` in place of each numeric metric. -/
theorem failed_cell_reported (mapName : List Char) (wp agent_count : Nat)
    (rc : Int) (so se : List Char) (sd : Option SummaryData)
    (render : SummaryData → List Char × List Char × List Char)
    (all_results : List CellResult) (hrc : rc ≠ 0) :
    (run_single_experiment mapName wp agent_count (.finished rc so se sd)).status
        = statusFailed ∧
    (run_single_experiment mapName wp agent_count (.finished rc so se sd)).error
        = some se ∧
    (run_single_experiment mapName wp agent_count (.finished rc so se sd)).stdout
        = some so ∧
    (run_single_experiment mapName wp agent_count (.finished rc so se sd) ∈ all_results →
      run_single_experiment mapName wp agent_count (.finished rc so se sd)
          ∈ (generate_comprehensive_report render all_results).1 ∧
      reportRow render (run_single_experiment mapName wp agent_count (.finished rc so se sd))
          ∈ (generate_comprehensive_report render all_results).2 ∧
      (reportRow render
          (run_single_experiment mapName wp agent_count (.finished rc so se sd))).status
          = statusFailed ∧
      (reportRow render
          (run_single_experiment mapName wp agent_count (.finished rc so se sd))).runtime
          = notAvailable ∧
      (reportRow render
          (run_single_experiment mapName wp agent_count (.finished rc so se sd))).cost
          = notAvailable ∧
      (reportRow render
          (run_single_experiment mapName wp agent_count (.finished rc so se sd))).costPerAgent
          = notAvailable) := by
  have hrun : run_single_experiment mapName wp agent_count (.finished rc so se sd) =
      ⟨mapName, wp, agent_count, statusFailed, some se, some so, none⟩ := by
    simp [run_single_experiment, hrc]
  have hnotsucc : ¬ statusFailed = statusSuccess := by decide
  have hrow : reportRow render (run_single_experiment mapName wp agent_count
      (.finished rc so se sd)) =
      ⟨mapName.take 19, wp, agent_count, statusFailed.take 9,
       notAvailable, notAvailable, notAvailable⟩ := by
    rw [hrun]
    simp [reportRow, hnotsucc]
  refine ⟨by rw [hrun], by rw [hrun], by rw [hrun], ?_⟩
  intro hmem
  refine ⟨hmem, List.mem_map_of_mem _ hmem, ?_, ?_, ?_, ?_⟩
  · rw [hrow]
    rfl
  · rw [hrow]
  · rw [hrow]
  · rw [hrow]

/-- C8 witness: a concrete failed cell inside a one-cell result list. -/
theorem failed_cell_reported_instance :
    (run_single_experiment (("warehouse").data) 2 100
        (.finished 1 (("out").data) (("boom").data) none)).status = statusFailed ∧
    (reportRow (fun _ => (notAvailable, notAvailable, notAvailable))
        (run_single_experiment (("warehouse").data) 2 100
          (.finished 1 (("out").data) (("boom").data) none))).cost = notAvailable := by
  have h := failed_cell_reported (("warehouse").data) 2 100 1 (("out").data) (("boom").data)
    none (fun _ => (notAvailable, notAvailable, notAvailable))
    [run_single_experiment (("warehouse").data) 2 100
      (.finished 1 (("out").data) (("boom").data) none)] (by decide)
  exact ⟨h.1, (h.2.2.2 (List.mem_cons_self _ _)).2.2.2.2.1⟩

/-! ## C10: the builder's output does not round-trip through the parser

`create_segment_scenario` writes 9 tab-separated fields per agent and
omits the waypoint-count field, so every agent line fails the parser's
10-field minimum and is skipped. The lemmas below count tab characters in
the rendered lines. -/

/-- A digit character is never the tab character. -/
theorem digitCh_ne_tab (d : Nat) : digitCh d ≠ '\t' := by
  unfold digitCh
  split <;> decide

/-- Decimal renderings of naturals contain no tab character. -/
theorem tab_not_mem_natRepr (n : Nat) : ¬ '\t' ∈ natRepr n := by
  induction n using Nat.strong_induction_on with
  | _ n ih =>
    rw [natRepr]
    split
    · simp
      exact fun h => digitCh_ne_tab n h.symm
    · intro hmem
      rcases List.mem_append.mp hmem with h | h
      · exact ih (n / 10) (Nat.div_lt_self (by omega) (by omega)) h
      · simp at h
        exact digitCh_ne_tab (n % 10) h.symm

/-- Decimal renderings of Python integers contain no tab character. -/
theorem tab_not_mem_intRepr (n : Int) : ¬ '\t' ∈ intRepr n := by
  unfold intRepr
  split
  · intro hmem
    rcases List.mem_cons.mp hmem with h | h
    · exact absurd h.symm (by decide)
    · exact tab_not_mem_natRepr _ h
  · exact tab_not_mem_natRepr _

/-- `splitTab` produces one more field than there are tab characters. -/
theorem splitTab_length_eq_count (l : List Char) :
    (splitTab l).length = l.count '\t' + 1 := by
  induction l with
  | nil => rfl
  | cons c rest ih =>
    by_cases hc : c = '\t'
    · subst hc
      simp [splitTab, ih, List.count_cons]
    · cases h : splitTab rest with
      | nil =>
        rw [h] at ih
        simp at ih
      | cons f fs =>
        rw [h] at ih
        simp only [List.length_cons] at ih
        simp [splitTab, hc, h, List.count_cons]
        omega

/-- Joining tab-free fields with tabs yields one tab per inner boundary. -/
theorem count_tab_joinTab (fs : List (List Char)) (h : ∀ f ∈ fs, ¬ '\t' ∈ f) :
    (joinTab fs).count '\t' = fs.length - 1 := by
  induction fs with
  | nil => rfl
  | cons f rest ih =>
    cases rest with
    | nil =>
      show f.count '\t' = 0
      exact List.count_eq_zero.mpr (h f (List.mem_cons_self f []))
    | cons g gs =>
      have hf : f.count '\t' = 0 :=
        List.count_eq_zero.mpr (h f (List.mem_cons_self f (g :: gs)))
      have hrest := ih (fun e he => h e (List.mem_cons_of_mem f he))
      show (f ++ '\t' :: joinTab (g :: gs)).count '\t' = (g :: gs).length + 1 - 1
      rw [List.count_append, hf, List.count_cons]
      simp only [List.length_cons] at hrest ⊢
      rw [hrest]
      simp

/-- No field of a built agent line contains a tab (the map filename is
assumed tab-free). -/
theorem tab_not_mem_agentLineFields (a : Agent) (s : Nat) (mapName : List Char)
    (w h : Int) (hmap : ¬ '\t' ∈ mapName) :
    ∀ f ∈ agentLineFields a s mapName w h, ¬ '\t' ∈ f := by
  intro f hf
  simp only [agentLineFields, List.mem_cons] at hf
  rcases hf with rfl | rfl | rfl | rfl | rfl | rfl | rfl | rfl | rfl | hf
  · exact tab_not_mem_intRepr _
  · exact hmap
  · exact tab_not_mem_intRepr _
  · exact tab_not_mem_intRepr _
  · exact tab_not_mem_intRepr _
  · exact tab_not_mem_intRepr _
  · exact tab_not_mem_intRepr _
  · exact tab_not_mem_intRepr _
  · exact tab_not_mem_intRepr _
  · exact absurd hf (List.not_mem_nil f)

/-- Each built agent line splits into exactly 9 tab-separated fields. -/
theorem agentLine_nine_fields (a : Agent) (s : Nat) (mapName : List Char)
    (w h : Int) (hmap : ¬ '\t' ∈ mapName) :
    (splitTab (joinTab (agentLineFields a s mapName w h))).length = 9 := by
  rw [splitTab_length_eq_count,
    count_tab_joinTab _ (tab_not_mem_agentLineFields a s mapName w h hmap)]
  rfl

/-- Stripping removes characters only from the ends, so it cannot increase
the number of tab characters. -/
theorem count_pyStrip_le (c : Char) (l : List Char) :
    (pyStrip l).count c ≤ l.count c := by
  unfold pyStrip
  calc ((((l.dropWhile isPySpace).reverse).dropWhile isPySpace).reverse).count c
      = (((l.dropWhile isPySpace).reverse).dropWhile isPySpace).count c :=
        List.count_reverse c _
    _ ≤ ((l.dropWhile isPySpace).reverse).count c :=
        (List.dropWhile_sublist _).count_le c
    _ = (l.dropWhile isPySpace).count c := List.count_reverse c _
    _ ≤ l.count c := (List.dropWhile_sublist _).count_le c

/-- A line whose stripped form splits into fewer than 10 fields makes the
parser's loop body advance to the next line without recording an agent
(the empty-line branch and the under-10-fields branch both do). -/
theorem parseStep_skips (lines : List (List Char)) (i : Nat) (acc : List Agent)
    (l : List Char) (hl : lines[i]? = some l)
    (hskip : (splitTab (pyStrip l)).length < 10) :
    parseStep ⟨lines, i, acc⟩ = .cont ⟨lines, i + 1, acc⟩ := by
  unfold parseStep
  rw [hl]
  by_cases he : pyStrip l = []
  · simp [he]
  · simp [he, hskip]

/-- Driving the loop over a window of skippable lines returns the
accumulated agents once the index passes the last line. -/
theorem parseRun_all_skipped (lines : List (List Char)) :
    ∀ fuel i acc,
      (∀ j l, i ≤ j → lines[j]? = some l → (splitTab (pyStrip l)).length < 10) →
      lines.length - i < fuel →
      parseRun fuel ⟨lines, i, acc⟩ = some (.parsed acc.reverse) := by
  intro fuel
  induction fuel with
  | zero =>
    intro i acc _ hfuel
    omega
  | succ fuel ih =>
    intro i acc hskip hfuel
    cases hl : lines[i]? with
    | none =>
      simp [parseRun, parseStep, hl]
    | some l =>
      have hilt : i < lines.length := by
        by_contra hge
        rw [List.getElem?_eq_none (by omega)] at hl
        exact Option.noConfusion hl
      have hstep := parseStep_skips lines i acc l hl (hskip i l (Nat.le_refl i) hl)
      rw [show parseRun (fuel + 1) ⟨lines, i, acc⟩ =
          (match parseStep ⟨lines, i, acc⟩ with
           | .done ags => some (.parsed ags)
           | .raise => some .raised
           | .cont s2 => parseRun fuel s2) from rfl, hstep]
      exact ih (i + 1) acc (fun j l2 hj hl2 => hskip j l2 (by omega) hl2) (by omega)

/-- C10: for every agent list and segment index (and any tab-free map
filename), the text built by `create_segment_scenario` is the `version 1`
header plus exactly one 9-field tab-delimited line per agent, and feeding
it back to `parse_waypoint_scenario` yields the empty agent list: every
agent line has fewer than 10 fields and is skipped. -/
theorem builder_output_not_parsed_back (agents : List Agent) (segment_idx : Nat)
    (map_filename : List Char) (map_width map_height : Int)
    (hmap : ¬ '\t' ∈ map_filename) :
    (create_segment_scenario agents segment_idx map_filename map_width map_height).length
        = agents.length + 1 ∧
    (∀ l ∈ (create_segment_scenario agents segment_idx map_filename map_width
        map_height).drop 1, (splitTab l).length = 9) ∧
    (∀ fuel, agents.length + 2 ≤ fuel →
      parse_waypoint_scenario fuel
        (create_segment_scenario agents segment_idx map_filename map_width map_height)
        = some (.parsed [])) := by
  refine ⟨by simp [create_segment_scenario], ?_, ?_⟩
  · intro l hl
    simp only [create_segment_scenario, List.drop_succ_cons, List.drop_zero,
      List.mem_map] at hl
    obtain ⟨a, _, rfl⟩ := hl
    exact agentLine_nine_fields a segment_idx map_filename map_width map_height hmap
  · intro fuel hfuel
    have hhead : parse_waypoint_scenario fuel
        (create_segment_scenario agents segment_idx map_filename map_width map_height) =
        parseRun fuel ⟨create_segment_scenario agents segment_idx map_filename map_width
          map_height, 1, []⟩ := by
      show parseRun fuel ⟨_, if startsWithStr versionWord (pyStrip versionHeader)
        then 1 else 0, []⟩ = _
      rw [if_pos (by decide)]
    rw [hhead]
    have hrun := parseRun_all_skipped
      (create_segment_scenario agents segment_idx map_filename map_width map_height)
      fuel 1 []
      (fun j l hj hl => by
        have hmem : l ∈ (create_segment_scenario agents segment_idx map_filename
            map_width map_height).drop 1 := by
          obtain ⟨j', rfl⟩ : ∃ j', j = j' + 1 := ⟨j - 1, by omega⟩
          have hl' : (agents.map (fun a => joinTab (agentLineFields a segment_idx
              map_filename map_width map_height)))[j']? = some l := by
            rw [show (create_segment_scenario agents segment_idx map_filename map_width
              map_height) = versionHeader :: agents.map (fun a =>
                joinTab (agentLineFields a segment_idx map_filename map_width map_height))
              from rfl, List.getElem?_cons_succ] at hl
            exact hl
          exact List.getElem?_mem hl'
        simp only [create_segment_scenario, List.drop_succ_cons, List.drop_zero,
          List.mem_map] at hmem
        obtain ⟨a, _, rfl⟩ := hmem
        have h9 : ((joinTab (agentLineFields a segment_idx map_filename map_width
            map_height)).count '\t') = 8 := by
          rw [count_tab_joinTab _ (tab_not_mem_agentLineFields a segment_idx map_filename
            map_width map_height hmap)]
          rfl
        have hle := count_pyStrip_le '\t'
          (joinTab (agentLineFields a segment_idx map_filename map_width map_height))
        rw [splitTab_length_eq_count]
        omega)
      (by simp [create_segment_scenario]; omega)
    simpa using hrun

/-- C10 witness: the one-agent demonstration scenario built for segment 0
parses back to the empty agent list. -/
theorem builder_output_not_parsed_back_instance :
    parse_waypoint_scenario 3
      (create_segment_scenario [demoA] 0 (("m.map").data) 8 8) = some (.parsed []) :=
  (builder_output_not_parsed_back [demoA] 0 (("m.map").data) 8 8 (by decide)).2.2
    3 (by decide)
